import Mathlib

/-!
Verification of the in-memory open-document cache of `api/lang/file.go`
(gauge repository).  The Go code keeps a `map[lsp.DocumentURI][]string`
protected by a mutex; every operation acquires the lock for its whole
duration, so sequential semantics are the faithful model.  We embed:

  * a document identifier as a `String`;
  * a text as a `List Char` (`\r\n` and `\n` are the characters `'\r'`,
    `'\n'`);
  * the cache as a total function `String → Option (List (List Char))`,
    where `none` models absence of the key in the Go map and the Go
    zero-value read `file.cache[uri]` of a missing key is `Option.getD []`
    (a `nil` slice);
  * indexing a slice (`file.cache[uri][lineNo]`) as `List.get?`, where
    `none` models the Go index-out-of-range panic;
  * `strings.Replace(text, "\r\n", "\n", -1)` as the left-to-right
    non-overlapping rewrite `normalizeCRLF`;
  * `strings.Split(text, "\n")` as `List.splitOn '\n'` and
    `strings.Join(lines, "\n")` as `['\n'].intercalate lines`.
-/

/-- A document identifier (`lsp.DocumentURI` in the Go source). -/
def DocId : Type := String

instance : DecidableEq DocId := fun a b => String.decEq a b

/-- The state of the `files` cache: the Go `map[lsp.DocumentURI][]string`.
`none` means the key is absent from the map. -/
def FileCache : Type := DocId → Option (List (List Char))

/-- `strings.Replace(text, "\r\n", "\n", -1)`: replace every (non-overlapping,
left-to-right) occurrence of the two-character sequence `\r\n` by `\n`. -/
def normalizeCRLF : List Char → List Char
  | '\r' :: '\n' :: rest => '\n' :: normalizeCRLF rest
  | c :: rest => c :: normalizeCRLF rest
  | [] => []

/-- `strings.Split(text, "\n")`: split a text on the newline character.
Splitting the empty text yields one empty segment. -/
def splitLines (t : List Char) : List (List Char) :=
  t.splitOn '\n'

/-- The empty cache, `make(map[lsp.DocumentURI][]string)`. -/
def emptyCache : FileCache := fun _ => none

namespace files

/-- `files.add`: normalize `\r\n` to `\n`, split on `\n`, and store the
resulting line slice under `uri` (inserting or overwriting). -/
def add (s : FileCache) (uri : DocId) (text : List Char) : FileCache :=
  fun u => if u = uri then some (splitLines (normalizeCRLF text)) else s u

/-- `files.remove`: `delete(file.cache, uri)` — drop the entry if present. -/
def remove (s : FileCache) (uri : DocId) : FileCache :=
  fun u => if u = uri then none else s u

/-- `files.line`: `file.cache[uri][lineNo]`.  A missing key reads as the
`nil` slice (`getD []`); an out-of-range index on that slice is the Go
panic, modelled by `none` from `List.get?`. -/
def line (s : FileCache) (uri : DocId) (lineNo : Nat) : Option (List Char) :=
  ((s uri).getD []).get? lineNo

/-- `files.content`: `file.cache[uri]` — the stored line slice, a `nil`
(empty) slice when the key is absent. -/
def content (s : FileCache) (uri : DocId) : List (List Char) :=
  (s uri).getD []

/-- `files.exists`: `_, ok := file.cache[uri]; return ok`. -/
def «exists» (s : FileCache) (uri : DocId) : Bool :=
  (s uri).isSome

end files

/-- `openFile`: handle a DidOpen notification — `add(uri, text)`. -/
def openFile (s : FileCache) (uri : DocId) (text : List Char) : FileCache :=
  files.add s uri text

/-- `closeFile`: handle a DidClose notification — `remove(uri)`. -/
def closeFile (s : FileCache) (uri : DocId) : FileCache :=
  files.remove s uri

/-- `changeFile`: handle a DidChange notification —
`add(uri, params.ContentChanges[0].Text)`.  Indexing `ContentChanges[0]`
panics when the change list is empty, modelled by `none`. -/
def changeFile (s : FileCache) (uri : DocId) (contentChanges : List (List Char)) :
    Option FileCache :=
  match contentChanges with
  | t :: _ => some (files.add s uri t)
  | [] => none

/-- `getLine`: `openFilesCache.line(uri, line)`. -/
def getLine (s : FileCache) (uri : DocId) (lineNo : Nat) : Option (List Char) :=
  files.line s uri lineNo

/-- `getContent`: `strings.Join(openFilesCache.content(uri), "\n")`. -/
def getContent (s : FileCache) (uri : DocId) : List Char :=
  List.intercalate ['\n'] (files.content s uri)

/-- `getLineCount`: `len(openFilesCache.content(uri))`. -/
def getLineCount (s : FileCache) (uri : DocId) : Nat :=
  (files.content s uri).length

/-- `isOpen`: `openFilesCache.exists(uri)`. -/
def isOpen (s : FileCache) (uri : DocId) : Bool :=
  files.«exists» s uri

/-- Joining on `\n` the segments obtained by splitting on `\n` restores
the original text. -/
theorem intercalate_splitLines (t : List Char) :
    List.intercalate ['\n'] (splitLines t) = t := by
  simp only [splitLines]
  exact List.intercalate_splitOn t '\n'

/-- C1: `open(id, T)` followed by `content(id)` returns `T` with every
`\r\n` replaced by `\n`; in particular for empty `T` the result is the
empty text. -/
theorem content_after_open (s : FileCache) (id : DocId) (T : List Char) :
    getContent (openFile s id T) id = normalizeCRLF T ∧
      (T = [] → getContent (openFile s id T) id = []) := by
  constructor
  · simp [getContent, openFile, files.add, files.content, intercalate_splitLines]
  · intro h
    subst h
    simp [getContent, openFile, files.add, files.content, intercalate_splitLines,
      normalizeCRLF]

/-- C1 witness: at the concrete inputs `['a', '\r', '\n', 'b']` and `[]`,
with the empty-text hypothesis discharged by `rfl`. -/
theorem content_after_open_witness :
    getContent (openFile emptyCache "file:///a.txt"
        ['a', '\r', '\n', 'b']) "file:///a.txt" = ['a', '\n', 'b'] ∧
      getContent (openFile emptyCache "file:///a.txt" []) "file:///a.txt" = [] := by
  refine ⟨?_, (content_after_open emptyCache "file:///a.txt" []).2 rfl⟩
  rw [(content_after_open emptyCache "file:///a.txt" ['a', '\r', '\n', 'b']).1]
  decide

/-- Overwriting an entry absorbs any earlier store for the same identifier:
`add (add s id T1) id T2 = add s id T2`. -/
theorem add_add_same (s : FileCache) (id : DocId) (T1 T2 : List Char) :
    files.add (files.add s id T1) id T2 = files.add s id T2 := by
  funext u
  by_cases hu : u = id <;> simp [files.add, hu]

/-- C2: `change(id, text)` has the identical effect on the store as
`open(id, text)`: it stores the freshly split first content change, on any
state whatsoever (including one where `id` was never opened — an implicit
open), and after `open(id, T1)` the resulting state is independent of `T1`
(no merge with the previous content). -/
theorem change_eq_open (s : FileCache) (id : DocId) (t : List Char)
    (rest : List (List Char)) :
    changeFile s id (t :: rest) = some (openFile s id t) ∧
      ∀ T1 : List Char,
        changeFile (openFile s id T1) id (t :: rest) = some (openFile s id t) := by
  refine ⟨rfl, fun T1 => ?_⟩
  simp only [changeFile, openFile]
  rw [add_add_same]

/-- The split of any text is a nonempty list of segments. -/
theorem splitLines_ne_nil (t : List Char) : splitLines t ≠ [] := by
  simpa [splitLines, List.splitOn] using List.splitOnP_ne_nil (fun c => c == '\n') t

/-- C3: `count(id)` after `open(id, T)` equals the number of `\n`-separated
segments of the `\r\n`-normalized `T`, and that number is at least 1. -/
theorem lineCount_after_open (s : FileCache) (id : DocId) (T : List Char) :
    getLineCount (openFile s id T) id = ((normalizeCRLF T).splitOn '\n').length ∧
      1 ≤ getLineCount (openFile s id T) id := by
  have hlen : getLineCount (openFile s id T) id =
      ((normalizeCRLF T).splitOn '\n').length := by
    simp [getLineCount, openFile, files.add, files.content, splitLines]
  refine ⟨hlen, ?_⟩
  rw [hlen]
  exact List.length_pos.mpr (splitLines_ne_nil (normalizeCRLF T))

/-- C4: when `exists(id)` holds and `0 ≤ n < count(id)` after `open(id, T)`,
`line(id, n)` returns the `n`-th segment of the normalized, `\n`-split text
most recently stored for `id`, and the out-of-range fault branch (`none`)
is unreachable. -/
theorem line_after_open (s : FileCache) (id : DocId) (T : List Char) (n : Nat)
    (_hex : isOpen (openFile s id T) id = true)
    (hn : n < getLineCount (openFile s id T) id) :
    getLine (openFile s id T) id n = ((normalizeCRLF T).splitOn '\n').get? n ∧
      (getLine (openFile s id T) id n).isSome = true := by
  have hline : getLine (openFile s id T) id n =
      ((normalizeCRLF T).splitOn '\n').get? n := by
    simp [getLine, files.line, openFile, files.add, splitLines]
  refine ⟨hline, ?_⟩
  have hn' : n < ((normalizeCRLF T).splitOn '\n').length := by
    have hcount := (lineCount_after_open s id T).1
    rw [hcount] at hn
    exact hn
  rw [hline, List.get?_eq_getElem?, List.getElem?_eq_getElem hn']
  rfl

/-- C4 witness: a two-line document, reading line 1, with both
preconditions discharged concretely. -/
theorem line_after_open_witness :
    getLine (openFile emptyCache "file:///a.txt" ['x', '\n', 'y'])
        "file:///a.txt" 1 =
      ((normalizeCRLF ['x', '\n', 'y']).splitOn '\n').get? 1 ∧
      (getLine (openFile emptyCache "file:///a.txt" ['x', '\n', 'y'])
        "file:///a.txt" 1).isSome = true :=
  line_after_open emptyCache "file:///a.txt" ['x', '\n', 'y'] 1
    (by decide) (by decide)

/-- A store operation: an open, change or close notification, as handled
by `openFile`, `changeFile` and `closeFile`. -/
inductive Op where
  | doOpen : DocId → List Char → Op
  | doChange : DocId → List (List Char) → Op
  | doClose : DocId → Op

/-- Execute one operation (a change may fault on an empty change list). -/
def applyOp (s : FileCache) : Op → Option FileCache
  | Op.doOpen uri t => some (openFile s uri t)
  | Op.doChange uri cs => changeFile s uri cs
  | Op.doClose uri => some (closeFile s uri)

/-- Execute a sequence of operations from a starting state. -/
def runOps (s : FileCache) : List Op → Option FileCache
  | [] => some s
  | op :: rest =>
    match applyOp s op with
    | some s2 => runOps s2 rest
    | none => none

/-- Whether an operation passes `id` to open or change (close never
creates an entry). -/
def writesTo (id : DocId) : Op → Bool
  | Op.doOpen uri _ => decide (uri = id)
  | Op.doChange uri _ => decide (uri = id)
  | Op.doClose _ => false

/-- An identifier absent from the map stays absent under any operation
that does not open or change it. -/
theorem runOps_preserves_none (id : DocId) :
    ∀ (ops : List Op) (s s2 : FileCache), runOps s ops = some s2 →
      s id = none → (∀ op ∈ ops, writesTo id op = false) → s2 id = none := by
  intro ops
  induction ops with
  | nil =>
    intro s s2 hrun hnone _
    simp only [runOps] at hrun
    cases hrun
    exact hnone
  | cons op rest ih =>
    intro s s2 hrun hnone hw
    have hwop : writesTo id op = false := hw op (List.mem_cons_self op rest)
    have hwrest : ∀ o ∈ rest, writesTo id o = false :=
      fun o ho => hw o (List.mem_cons_of_mem op ho)
    cases op with
    | doOpen uri t =>
      have huri : uri ≠ id := by simpa [writesTo] using hwop
      simp only [runOps, applyOp] at hrun
      refine ih _ s2 hrun ?_ hwrest
      simp [openFile, files.add, huri, Ne.symm huri, hnone]
    | doChange uri cs =>
      have huri : uri ≠ id := by simpa [writesTo] using hwop
      cases cs with
      | nil => simp [runOps, applyOp, changeFile] at hrun
      | cons t ts =>
        simp only [runOps, applyOp, changeFile] at hrun
        refine ih _ s2 hrun ?_ hwrest
        simp [files.add, huri, Ne.symm huri, hnone]
    | doClose uri =>
      simp only [runOps, applyOp] at hrun
      refine ih _ s2 hrun ?_ hwrest
      by_cases huri : id = uri <;> simp [closeFile, files.remove, huri, hnone]

/-- C5: in every reachable state, `exists(id)` holds iff `id` has an entry
in the mapping; `exists(id)` is false for an identifier never passed to
open/change; `close(id)` deletes the entry and is a no-op when absent; and
after `close(id)`, `exists(id)` is false regardless of preceding history. -/
theorem exists_invariant (id : DocId) :
    (∀ s : FileCache, files.«exists» s id = (s id).isSome) ∧
      (∀ (ops : List Op) (s : FileCache), runOps emptyCache ops = some s →
        (∀ op ∈ ops, writesTo id op = false) → files.«exists» s id = false) ∧
      (∀ s : FileCache, closeFile s id id = none) ∧
      (∀ s : FileCache, s id = none → closeFile s id = s) ∧
      (∀ s : FileCache, files.«exists» (closeFile s id) id = false) := by
  refine ⟨fun s => rfl, ?_, ?_, ?_, ?_⟩
  · intro ops s hrun hw
    have hnone : s id = none :=
      runOps_preserves_none id ops emptyCache s hrun rfl hw
    simp [files.«exists», hnone]
  · intro s
    simp [closeFile, files.remove]
  · intro s hnone
    funext u
    by_cases hu : u = id
    · subst hu
      simp [closeFile, files.remove, hnone]
    · simp [closeFile, files.remove, hu]
  · intro s
    simp [files.«exists», closeFile, files.remove]

/-- C5 witness: open a different document, then `exists` of a never-opened
identifier is false; closing an absent identifier is a no-op; after an
open-then-close, `exists` is false. -/
theorem exists_invariant_witness :
    files.«exists» (openFile emptyCache "file:///b.txt" []) "file:///a.txt" = false ∧
      closeFile emptyCache "file:///a.txt" = emptyCache ∧
      files.«exists» (closeFile (openFile emptyCache "file:///a.txt" ['x'])
        "file:///a.txt") "file:///a.txt" = false := by
  refine ⟨?_, ?_, ?_⟩
  · refine (exists_invariant "file:///a.txt").2.1
      [Op.doOpen "file:///b.txt" []] _ rfl ?_
    intro op hop
    have h := List.mem_singleton.mp hop
    subst h
    decide
  · exact (exists_invariant "file:///a.txt").2.2.2.1 emptyCache rfl
  · exact (exists_invariant "file:///a.txt").2.2.2.2
      (openFile emptyCache "file:///a.txt" ['x'])

/-- C6 counterexample: on an identifier with no stored entry, `content`
and `count` do NOT propagate a fault — reading the missing key yields the
zero-value slice, so `content` silently returns the empty text and `count`
returns 0, contradicting the claim that every read on a missing identifier
faults and never yields a silent empty result. -/
theorem missing_reads_silent_counterexample :
    files.«exists» emptyCache "file:///a.txt" = false ∧
      getContent emptyCache "file:///a.txt" = [] ∧
      getLineCount emptyCache "file:///a.txt" = 0 := by
  refine ⟨rfl, ?_, rfl⟩
  simp [getContent, files.content, emptyCache, List.intercalate]

/-- C6 amended: for an identifier with no stored entry, only `line(id, n)`
propagates an index fault; `content(id)` silently returns the empty text
and `count(id)` returns 0. -/
theorem missing_reads_amended (s : FileCache) (id : DocId)
    (h : s id = none) :
    (∀ n, getLine s id n = none) ∧
      getContent s id = [] ∧ getLineCount s id = 0 := by
  refine ⟨fun n => ?_, ?_, ?_⟩
  · simp [getLine, files.line, h]
  · simp [getContent, files.content, h, List.intercalate]
  · simp [getLineCount, files.content, h]

/-- C6 amended witness: the never-opened identifier `file:///c.txt` in the
empty cache. -/
theorem missing_reads_amended_witness :
    getLine emptyCache "file:///c.txt" 0 = none ∧
      getContent emptyCache "file:///c.txt" = [] ∧
      getLineCount emptyCache "file:///c.txt" = 0 :=
  have h := missing_reads_amended emptyCache "file:///c.txt" rfl
  ⟨h.1 0, h.2.1, h.2.2⟩

/-- C7: for an identifier with no stored entry, `content(id)` returns the
empty text and `count(id)` returns 0 without faulting (the missing key
reads as the zero-value empty line sequence), while `line(id, n)` faults
(`none`) for every index `n`. -/
theorem missing_reads_zero_value (s : FileCache) (id : DocId)
    (h : files.«exists» s id = false) :
    getContent s id = [] ∧ getLineCount s id = 0 ∧
      ∀ n, getLine s id n = none := by
  have hnone : s id = none := by
    simpa [files.«exists», Option.isSome_iff_exists] using h
  refine ⟨?_, ?_, fun n => ?_⟩
  · simp [getContent, files.content, hnone, List.intercalate]
  · simp [getLineCount, files.content, hnone]
  · simp [getLine, files.line, hnone]

/-- C7 witness: a closed identifier — open then close `file:///d.txt`,
whose reads then yield empty content, zero count and a faulting `line`. -/
theorem missing_reads_zero_value_witness :
    getContent (closeFile (openFile emptyCache "file:///d.txt" ['x'])
      "file:///d.txt") "file:///d.txt" = [] ∧
      getLineCount (closeFile (openFile emptyCache "file:///d.txt" ['x'])
        "file:///d.txt") "file:///d.txt" = 0 ∧
      getLine (closeFile (openFile emptyCache "file:///d.txt" ['x'])
        "file:///d.txt") "file:///d.txt" 5 = none :=
  have h := missing_reads_zero_value
    (closeFile (openFile emptyCache "file:///d.txt" ['x']) "file:///d.txt")
    "file:///d.txt" (by decide)
  ⟨h.1, h.2.1, h.2.2 5⟩

/-- C8: operations on identifier `A` leave the entry of any distinct
identifier `B` unchanged, its presence or absence included. -/
theorem frame_distinct_ids (s : FileCache) (A B : DocId) (hAB : A ≠ B)
    (T : List Char) (cs : List (List Char)) :
    openFile s A T B = s B ∧ closeFile s A B = s B ∧
      ∀ s2, changeFile s A cs = some s2 → s2 B = s B := by
  refine ⟨?_, ?_, ?_⟩
  · simp [openFile, files.add, Ne.symm hAB]
  · simp [closeFile, files.remove, Ne.symm hAB]
  · intro s2 hs2
    cases cs with
    | nil => simp [changeFile] at hs2
    | cons t ts =>
      simp only [changeFile, Option.some_inj] at hs2
      subst hs2
      simp [files.add, Ne.symm hAB]

/-- C8 witness: operations on `file:///a.txt` leave the open entry of
`file:///b.txt` untouched. -/
theorem frame_distinct_ids_witness :
    openFile (openFile emptyCache "file:///b.txt" ['y']) "file:///a.txt" ['x']
        "file:///b.txt" =
      openFile emptyCache "file:///b.txt" ['y'] "file:///b.txt" ∧
      closeFile (openFile emptyCache "file:///b.txt" ['y']) "file:///a.txt"
          "file:///b.txt" =
        openFile emptyCache "file:///b.txt" ['y'] "file:///b.txt" :=
  have h := frame_distinct_ids (openFile emptyCache "file:///b.txt" ['y'])
    "file:///a.txt" "file:///b.txt" (by decide) ['x'] [['x']]
  ⟨h.1, h.2.1⟩

/-- `files.line` with its state effect made explicit: the method body only
reads `file.cache`, so the receiver's cache after the call is the cache it
started with. -/
def lineSt (s : FileCache) (uri : DocId) (lineNo : Nat) :
    Option (List Char) × FileCache :=
  (((s uri).getD []).get? lineNo, s)

/-- `files.content` with its state effect made explicit. -/
def contentSt (s : FileCache) (uri : DocId) :
    List (List Char) × FileCache :=
  ((s uri).getD [], s)

/-- `files.exists` with its state effect made explicit. -/
def existsSt (s : FileCache) (uri : DocId) : Bool × FileCache :=
  ((s uri).isSome, s)

/-- `getLineCount` (`len` of `files.content`) with its state effect made
explicit. -/
def lineCountSt (s : FileCache) (uri : DocId) : Nat × FileCache :=
  (((s uri).getD []).length, s)

/-- C9: the read operations `exists`, `line`, `content` and `count` never
mutate the store — the mapping after each read equals the mapping before
it, and each read's result agrees with the pure read functions; whereas
the mutating transitions of `runOps` come only from open/change/close. -/
theorem reads_never_mutate (s : FileCache) (uri : DocId) (n : Nat) :
    (lineSt s uri n).2 = s ∧ (contentSt s uri).2 = s ∧
      (existsSt s uri).2 = s ∧ (lineCountSt s uri).2 = s ∧
      (lineSt s uri n).1 = files.line s uri n ∧
      (contentSt s uri).1 = files.content s uri ∧
      (existsSt s uri).1 = files.«exists» s uri ∧
      (lineCountSt s uri).1 = getLineCount s uri :=
  ⟨rfl, rfl, rfl, rfl, rfl, rfl, rfl, rfl⟩
